import Mathlib

/-!
# Verification of the dtokit runtime (src/dtokit.ts)

Shallow embedding of the runtime surface of `@marianmeres/dtokit`:
the DTO factory returned by `createDtoFactory<Schemas>()(discriminatorField)`
with its four operations `isValid`, `parse`, `is`, `getId`, and the
dispatcher returned by `createDtoHandler<Schemas>()(discriminatorField, handlers)`.

The type-level machinery (`DiscriminatorMap`, `DiscriminatorId`, ...) has no
runtime representation; the runtime operations are ordinary JavaScript over
dynamically typed values, so the embedding is over an inductive type of
JavaScript runtime values.
-/

namespace DtoKit

/-- JavaScript runtime values, as far as the dtokit runtime can observe them.
Numbers carry an integer payload (the runtime only ever asks `typeof` of a
number, never its arithmetic, so the float/int distinction is irrelevant);
symbols and functions carry an opaque tag (only their `typeof` matters).
`vObj` is an object's own-property table (keys assumed distinct);
`vArr` is an array's element list. -/
inductive JsValue : Type where
  | vNull
  | vUndefined
  | vBool (b : Bool)
  | vNum (n : Int)
  | vStr (s : String)
  | vSym (tag : Nat)
  | vFunc (tag : Nat)
  | vObj (fields : List (String × JsValue))
  | vArr (elems : List JsValue)

/-- JavaScript `typeof`. Note `typeof null === "object"`. -/
def typeofJs : JsValue → String
  | .vNull => "object"
  | .vUndefined => "undefined"
  | .vBool _ => "boolean"
  | .vNum _ => "number"
  | .vStr _ => "string"
  | .vSym _ => "symbol"
  | .vFunc _ => "function"
  | .vObj _ => "object"
  | .vArr _ => "object"

/-- Own-property lookup in an object's property table; absent keys read as
`undefined`. Property tables have distinct keys, so first match is the match. -/
def lookupField : List (String × JsValue) → String → JsValue
  | [], _ => .vUndefined
  | (k, v) :: rest, key => if k == key then v else lookupField rest key

/-- Array property access: a canonical numeric index string within bounds
reads the element, `"length"` reads the length (a number), everything else
reads `undefined`. Inherited prototype members (`push`, ...) are functions
and never a string, so they are irrelevant to every discriminator check and
are not modelled. -/
def arrIndex (elems : List JsValue) (key : String) : JsValue :=
  if key == "length" then .vNum elems.length
  else
    match key.toNat? with
    | some n =>
      if Nat.repr n == key then
        match elems[n]? with
        | some v => v
        | none => .vUndefined
      else .vUndefined
    | none => .vUndefined

/-- Property read `v[key]` for a value already known not to be `null` or
`undefined` (JavaScript member access only throws on those two). Reads on
boxed primitives yield `undefined` here; their real prototype members are
functions or numbers, never the discriminator string, so no operation of the
library can distinguish this. -/
def getField (v : JsValue) (key : String) : JsValue :=
  match v with
  | .vObj fields => lookupField fields key
  | .vArr elems => arrIndex elems key
  | _ => .vUndefined

/-- Property read `v[key]` with JavaScript's implicit throwing made explicit:
access on `null` or `undefined` raises a `TypeError`, every other access
succeeds. -/
def getFieldE (v : JsValue) (key : String) : Except String JsValue :=
  match v with
  | .vNull => .error "TypeError: cannot read properties of null"
  | .vUndefined => .error "TypeError: cannot read properties of undefined"
  | _ => .ok (getField v key)

/-- JavaScript strict equality `===` with a right operand that is statically a
string (as in `is`, whose `id` parameter is a string literal type): true iff
the left operand is the very same string; any non-string left operand is
unequal. -/
def strictEqStr (v : JsValue) (s : String) : Bool :=
  match v with
  | .vStr t => t == s
  | _ => false

/-- The final check of `isValid`:
`typeof value === "string" && value.length > 0`. -/
def isNonEmptyString (value : JsValue) : Bool :=
  match value with
  | .vStr s => decide (0 < s.length)
  | _ => false

/-- `isValid` (src/dtokit.ts:453-464):
`raw === null || raw === undefined` → false; `typeof raw !== "object"` →
false; otherwise read `raw[discriminatorField]` and return
`typeof value === "string" && value.length > 0`. -/
def isValid (discriminatorField : String) (raw : JsValue) : Bool :=
  match raw with
  | .vNull => false
  | .vUndefined => false
  | _ =>
    if typeofJs raw != "object" then false
    else isNonEmptyString (getField raw discriminatorField)

/-- `parse` (src/dtokit.ts:434-439): `if (!this.isValid(raw)) return null;
return raw as Dto;` — the success value is the argument itself. -/
def parse (discriminatorField : String) (raw : JsValue) : Option JsValue :=
  if !isValid discriminatorField raw then none else some raw

/-- `is` (src/dtokit.ts:441-445): `dto[discriminatorField] === id`. -/
def is (discriminatorField : String) (dto : JsValue) (id : String) : Bool :=
  strictEqStr (getField dto discriminatorField) id

/-- `getId` (src/dtokit.ts:447-451): returns `dto[discriminatorField]`
verbatim (the `as Id` cast has no runtime effect). -/
def getId (discriminatorField : String) (dto : JsValue) : JsValue :=
  getField dto discriminatorField

/-- `isValid` with JavaScript's implicit throwing made explicit. The null and
undefined guards run before the member access, exactly as in the source. -/
def isValidE (discriminatorField : String) (raw : JsValue) : Except String Bool :=
  match raw with
  | .vNull => .ok false
  | .vUndefined => .ok false
  | _ =>
    if typeofJs raw != "object" then .ok false
    else do
      let value ← getFieldE raw discriminatorField
      return isNonEmptyString value

/-- `parse` with implicit throwing made explicit: it only calls `isValidE`. -/
def parseE (discriminatorField : String) (raw : JsValue) :
    Except String (Option JsValue) := do
  let b ← isValidE discriminatorField raw
  if !b then return none else return some raw

/-- `is` with implicit throwing made explicit: the member access
`dto[discriminatorField]` is unguarded, so a `null` or `undefined` dto
throws. -/
def isE (discriminatorField : String) (dto : JsValue) (id : String) :
    Except String Bool := do
  let v ← getFieldE dto discriminatorField
  return strictEqStr v id

/-- `getId` with implicit throwing made explicit: the member access is
unguarded. -/
def getIdE (discriminatorField : String) (dto : JsValue) :
    Except String JsValue :=
  getFieldE dto discriminatorField

/-- Handler-map lookup `handlers[id]`: the map is an object whose keys are
the discriminator values and whose values are functions; a missing key reads
`undefined`, modelled as `none`. -/
def lookupHandler {R : Type} :
    List (String × (JsValue → R)) → String → Option (JsValue → R)
  | [], _ => none
  | (k, h) :: rest, key => if k == key then some h else lookupHandler rest key

/-- The dispatcher returned by `createDtoHandler` (src/dtokit.ts:567-584):
`const id = dto[discriminatorField] as Id; const handler = handlers[id];
return handler(dto)`. Invoking the `undefined` read off a missing key throws
a `TypeError`, modelled as the error branch; under the compile-time
exhaustiveness contract the discriminator value of a well-typed dto is a
string key of the map, so only the first branch is reachable there. A
non-string discriminator value would be coerced to a property key by
JavaScript; no schema-typed dto has one, so the coercion is not modelled. -/
def createDtoHandler {R : Type} (discriminatorField : String)
    (handlers : List (String × (JsValue → R))) (dto : JsValue) :
    Except String R :=
  match getField dto discriminatorField with
  | .vStr id =>
    match lookupHandler handlers id with
    | some handler => .ok (handler dto)
    | none => .error "TypeError: handler is not a function"
  | _ => .error "TypeError: handler is not a function"

/-! ## Helper lemmas -/

/-- The final check of `isValid` succeeds exactly on strings of positive
length. -/
theorem isNonEmptyString_iff (v : JsValue) :
    isNonEmptyString v = true ↔ ∃ s, v = .vStr s ∧ 0 < s.length := by
  cases v <;> simp [isNonEmptyString]

/-- A key that is not in the property table reads `undefined`. -/
theorem lookupField_not_mem (kvs : List (String × JsValue)) (key : String)
    (h : key ∉ kvs.map Prod.fst) : lookupField kvs key = .vUndefined := by
  induction kvs with
  | nil => rfl
  | cons p rest ih =>
    obtain ⟨k, v⟩ := p
    simp only [List.map_cons, List.mem_cons, not_or] at h
    have hk : (k == key) = false := by
      simp only [beq_eq_false_iff_ne, ne_eq]
      exact fun hkk => h.1 hkk.symm
    simp [lookupField, hk, ih h.2]

/-- Array access with the empty-string key reads `undefined`. -/
theorem arrIndex_empty_key (elems : List JsValue) :
    arrIndex elems "" = .vUndefined := by
  simp only [arrIndex]
  rw [show "".toNat? = none from rfl]
  simp

/-- Characterization of `isValid`: it holds exactly of non-null,
non-undefined values of object kind whose discriminator field is a string of
positive length. -/
theorem isValid_iff (f : String) (raw : JsValue) :
    isValid f raw = true ↔
      raw ≠ .vNull ∧ raw ≠ .vUndefined ∧ typeofJs raw = "object" ∧
        ∃ s, getField raw f = .vStr s ∧ 0 < s.length := by
  cases raw with
  | vNull => simp [isValid]
  | vUndefined => simp [isValid]
  | vBool b => simp [isValid, typeofJs]
  | vNum n => simp [isValid, typeofJs]
  | vStr s => simp [isValid, typeofJs]
  | vSym t => simp [isValid, typeofJs]
  | vFunc t => simp [isValid, typeofJs]
  | vObj kvs =>
    simpa [isValid, typeofJs] using isNonEmptyString_iff (getField (.vObj kvs) f)
  | vArr es =>
    simpa [isValid, typeofJs] using isNonEmptyString_iff (getField (.vArr es) f)

/-- `parse` succeeds, with the argument itself, exactly when `isValid`
holds. -/
theorem parse_eq_some_iff (f : String) (raw : JsValue) :
    parse f raw = some raw ↔ isValid f raw = true := by
  cases h : isValid f raw <;> simp [parse, h]

/-- `parse` fails exactly when `isValid` fails. -/
theorem parse_eq_none_iff (f : String) (raw : JsValue) :
    parse f raw = none ↔ isValid f raw = false := by
  cases h : isValid f raw <;> simp [parse, h]

/-- `isValid` never throws: the null and undefined guards run before the only
member access. -/
theorem isValidE_eq_ok (f : String) (raw : JsValue) :
    isValidE f raw = .ok (isValid f raw) := by
  cases raw <;> rfl

/-- `parse` never throws: it only calls `isValid`. -/
theorem parseE_eq_ok (f : String) (raw : JsValue) :
    parseE f raw = .ok (parse f raw) := by
  unfold parseE parse
  rw [isValidE_eq_ok]
  cases isValid f raw <;> rfl

/-- `is` only throws when the dto itself is null or undefined (its member
access is unguarded). -/
theorem isE_eq_ok (f id : String) (dto : JsValue)
    (h1 : dto ≠ .vNull) (h2 : dto ≠ .vUndefined) :
    isE f dto id = .ok (is f dto id) := by
  cases dto
  case vNull => exact absurd rfl h1
  case vUndefined => exact absurd rfl h2
  all_goals rfl

/-- `getId` only throws when the dto itself is null or undefined. -/
theorem getIdE_eq_ok (f : String) (dto : JsValue)
    (h1 : dto ≠ .vNull) (h2 : dto ≠ .vUndefined) :
    getIdE f dto = .ok (getId f dto) := by
  cases dto
  case vNull => exact absurd rfl h1
  case vUndefined => exact absurd rfl h2
  all_goals rfl

/-! ## Claim theorems -/

/-- C1: `isValid raw` is true iff `raw` is non-null, non-undefined, of object
kind (not a primitive, not a function) and `raw[fieldName]` is a string of
positive length; in particular a discriminator holding `""` is rejected while
`" "` is accepted (no trimming), and every non-string discriminator value
(number, null, array, object, boolean) is rejected. -/
theorem isValid_characterization (f : String) (raw : JsValue) :
    (isValid f raw = true ↔
      raw ≠ .vNull ∧ raw ≠ .vUndefined ∧ typeofJs raw = "object" ∧
        ∃ s, getField raw f = .vStr s ∧ 0 < s.length) ∧
    isValid "field" (.vObj [("field", .vStr "")]) = false ∧
    isValid "field" (.vObj [("field", .vStr " ")]) = true ∧
    isValid "field" (.vObj [("field", .vNum 123)]) = false ∧
    isValid "field" (.vObj [("field", .vNull)]) = false ∧
    isValid "field" (.vObj [("field", .vArr [])]) = false ∧
    isValid "field" (.vObj [("field", .vObj [])]) = false ∧
    isValid "field" (.vObj [("field", .vBool true)]) = false :=
  ⟨isValid_iff f raw, rfl, rfl, rfl, rfl, rfl, rfl, rfl⟩

/-- C2: for every raw input, `isValid raw` equals `parse raw !== null`:
`parse` returns null exactly when `isValid` is false, and a non-null result
exactly when `isValid` is true. -/
theorem isValid_eq_parse_isSome (f : String) (raw : JsValue) :
    isValid f raw = (parse f raw).isSome := by
  cases h : isValid f raw <;> simp [parse, h]

/-- C3: whenever `isValid raw` holds, `parse raw` returns `raw` itself — the
very argument, with no copy and no structural transformation. -/
theorem parse_returns_argument (f : String) (raw : JsValue)
    (h : isValid f raw = true) : parse f raw = some raw :=
  (parse_eq_some_iff f raw).mpr h

theorem parse_returns_argument_witness :
    isValid "id" (.vObj [("id", .vStr "message_a"), ("payload", .vStr "test")]) = true ∧
      parse "id" (.vObj [("id", .vStr "message_a"), ("payload", .vStr "test")]) =
        some (.vObj [("id", .vStr "message_a"), ("payload", .vStr "test")]) :=
  ⟨rfl, parse_returns_argument "id"
    (.vObj [("id", .vStr "message_a"), ("payload", .vStr "test")]) rfl⟩

/-- C4: when the dto's discriminator field holds a string `v` that is a key
of the handler map, the dispatcher returns exactly `h dto` where `h` is the
handler stored at `v` — that handler receives the dto unchanged, its result
is returned unmodified, and (the result being exactly `h dto`) no other
handler contributes. -/
theorem dispatch_invokes_matching_handler {R : Type} (f v : String)
    (handlers : List (String × (JsValue → R))) (h : JsValue → R)
    (dto : JsValue) (hv : getField dto f = .vStr v)
    (hh : lookupHandler handlers v = some h) :
    createDtoHandler f handlers dto = .ok (h dto) := by
  simp [createDtoHandler, hv, hh]

theorem dispatch_invokes_matching_handler_witness :
    createDtoHandler "field"
        [("a", fun _ => "handled a"), ("b", fun _ => "handled b")]
        (.vObj [("field", .vStr "a"), ("x", .vNum 1)]) = .ok "handled a" :=
  dispatch_invokes_matching_handler "field" "a"
    [("a", fun _ => "handled a"), ("b", fun _ => "handled b")]
    (fun _ => "handled a") (.vObj [("field", .vStr "a"), ("x", .vNum 1)])
    rfl rfl

/-- C5: `is dto value` is strict equality of `dto[fieldName]` against
`value`: when the discriminator field holds the string `X`, `is dto X` is
true and `is dto Y` is false for every other string `Y`. -/
theorem is_exact_equality (f X : String) (dto : JsValue)
    (hX : getField dto f = .vStr X) :
    is f dto X = true ∧ ∀ Y : String, Y ≠ X → is f dto Y = false := by
  refine ⟨by simp [is, strictEqStr, hX], fun Y hY => ?_⟩
  have hne : (X == Y) = false := beq_eq_false_iff_ne.mpr (Ne.symm hY)
  simp [is, strictEqStr, hX, hne]

theorem is_exact_equality_witness :
    is "id" (.vObj [("id", .vStr "X")]) "X" = true ∧
      is "id" (.vObj [("id", .vStr "X")]) "Y" = false :=
  ⟨(is_exact_equality "id" "X" (.vObj [("id", .vStr "X")]) rfl).1,
    (is_exact_equality "id" "X" (.vObj [("id", .vStr "X")]) rfl).2 "Y"
      (by decide)⟩

/-- C6: on every valid dto, `getId dto` is exactly the property read
`dto[fieldName]` — the stored value verbatim, no validation, no
transformation. -/
theorem getId_returns_field_verbatim (f : String) (dto : JsValue)
    (_h : isValid f dto = true) : getId f dto = getField dto f := rfl

theorem getId_returns_field_verbatim_witness :
    isValid "id" (.vObj [("id", .vStr "message_b")]) = true ∧
      getId "id" (.vObj [("id", .vStr "message_b")]) =
        getField (.vObj [("id", .vStr "message_b")]) "id" :=
  ⟨rfl, getId_returns_field_verbatim "id" (.vObj [("id", .vStr "message_b")]) rfl⟩

/-- C7 counterexample: `is` and `getId` DO throw on some inputs — their
member access `dto[discriminatorField]` is unguarded, and JavaScript member
access on `null` or `undefined` raises a `TypeError`. So not every operation
is exception-free for inputs of any shape or type. -/
theorem operations_throw_on_null_counterexample :
    isE "id" .vNull "x" = .error "TypeError: cannot read properties of null" ∧
    getIdE "id" .vUndefined =
      .error "TypeError: cannot read properties of undefined" :=
  ⟨rfl, rfl⟩

/-- C7 amended: `isValid` and `parse` never throw, for inputs of any shape or
type (their null/undefined guards run before the member access), and `is` and
`getId` never throw on any dto other than `null`/`undefined` — on those two,
outside the operations' declared dto type, JavaScript member access throws.
All failure inside these domains is communicated through `null`/`false`. -/
theorem operations_total_amended (f id : String) (raw dto : JsValue)
    (h1 : dto ≠ .vNull) (h2 : dto ≠ .vUndefined) :
    isValidE f raw = .ok (isValid f raw) ∧
    parseE f raw = .ok (parse f raw) ∧
    isE f dto id = .ok (is f dto id) ∧
    getIdE f dto = .ok (getId f dto) :=
  ⟨isValidE_eq_ok f raw, parseE_eq_ok f raw, isE_eq_ok f id dto h1 h2,
    getIdE_eq_ok f dto h1 h2⟩

theorem operations_total_amended_witness :
    isValidE "id" (.vStr "hi") = .ok (isValid "id" (.vStr "hi")) ∧
    parseE "id" (.vStr "hi") = .ok (parse "id" (.vStr "hi")) ∧
    isE "id" (.vObj [("id", .vStr "a")]) "a" =
      .ok (is "id" (.vObj [("id", .vStr "a")]) "a") ∧
    getIdE "id" (.vObj [("id", .vStr "a")]) =
      .ok (getId "id" (.vObj [("id", .vStr "a")])) :=
  operations_total_amended "id" "a" (.vStr "hi") (.vObj [("id", .vStr "a")])
    (fun h => JsValue.noConfusion h) (fun h => JsValue.noConfusion h)

/-- C8 counterexample: the empty string is a perfectly good property key, so
a factory with `""` as field name does NOT reject every input: an object
carrying the empty-string key with a non-empty string value is accepted by
`isValid` and `parse`. -/
theorem emptyFieldName_counterexample :
    isValid "" (.vObj [("", .vStr "x")]) = true ∧
    parse "" (.vObj [("", .vStr "x")]) = some (.vObj [("", .vStr "x")]) :=
  ⟨rfl, rfl⟩

/-- C8 amended: for a factory whose field name is the empty string, `isValid`
is false and `parse` is null on every input that does not itself carry the
empty string as a property key (arrays and primitives always fail; only an
object with an own property under the key `""` can validate). -/
theorem emptyFieldName_amended (raw : JsValue)
    (h : ∀ kvs, raw = .vObj kvs → "" ∉ kvs.map Prod.fst) :
    isValid "" raw = false ∧ parse "" raw = none := by
  have hv : isValid "" raw = false := by
    cases raw with
    | vObj kvs =>
      have hu := lookupField_not_mem kvs "" (h kvs rfl)
      simp [isValid, typeofJs, getField, hu, isNonEmptyString]
    | vArr es =>
      have hu := arrIndex_empty_key es
      simp [isValid, typeofJs, getField, hu, isNonEmptyString]
    | vNull => rfl
    | vUndefined => rfl
    | vBool b => rfl
    | vNum n => rfl
    | vStr s => rfl
    | vSym t => rfl
    | vFunc t => rfl
  exact ⟨hv, (parse_eq_none_iff "" raw).mpr hv⟩

theorem emptyFieldName_amended_witness :
    isValid "" (.vObj [("id", .vStr "a")]) = false ∧
      parse "" (.vObj [("id", .vStr "a")]) = none :=
  emptyFieldName_amended (.vObj [("id", .vStr "a")]) (by
    intro kvs hk
    injection hk with hk2
    subst hk2
    decide)

/-- C9: the runtime never consults the Discriminator Value Set — any object
whose discriminator field holds any string of positive length, including one
that is the discriminator value of no schema, passes `isValid` and is
returned by `parse`. -/
theorem runtime_accepts_any_nonempty_discriminator (f s : String)
    (raw : JsValue) (h1 : typeofJs raw = "object") (h2 : raw ≠ .vNull)
    (h3 : getField raw f = .vStr s) (h4 : 0 < s.length) :
    isValid f raw = true ∧ parse f raw = some raw := by
  have hnu : raw ≠ .vUndefined := by
    intro he
    rw [he] at h1
    simp [typeofJs] at h1
  have hv : isValid f raw = true :=
    (isValid_iff f raw).mpr ⟨h2, hnu, h1, s, h3, h4⟩
  exact ⟨hv, (parse_eq_some_iff f raw).mpr hv⟩

theorem runtime_accepts_any_nonempty_discriminator_witness :
    isValid "id" (.vObj [("id", .vStr "no_schema_has_this_value")]) = true ∧
      parse "id" (.vObj [("id", .vStr "no_schema_has_this_value")]) =
        some (.vObj [("id", .vStr "no_schema_has_this_value")]) :=
  runtime_accepts_any_nonempty_discriminator "id" "no_schema_has_this_value"
    (.vObj [("id", .vStr "no_schema_has_this_value")]) rfl
    (fun h => JsValue.noConfusion h) rfl (by decide)

/-- C10: on an object lacking the discriminator field entirely (the read
yields `undefined`), `is` returns false for every candidate value and does
not throw. -/
theorem is_missing_field_false (f id : String)
    (kvs : List (String × JsValue)) (h : f ∉ kvs.map Prod.fst) :
    is f (.vObj kvs) id = false ∧ isE f (.vObj kvs) id = .ok false := by
  have hu : getField (.vObj kvs) f = .vUndefined := lookupField_not_mem kvs f h
  have h1 : is f (.vObj kvs) id = false := by simp [is, hu, strictEqStr]
  refine ⟨h1, ?_⟩
  rw [isE_eq_ok f id (.vObj kvs) (fun hh => JsValue.noConfusion hh)
    (fun hh => JsValue.noConfusion hh), h1]

theorem is_missing_field_false_witness :
    is "id" (.vObj [("name", .vStr "test")]) "message_a" = false ∧
      isE "id" (.vObj [("name", .vStr "test")]) "message_a" = .ok false :=
  is_missing_field_false "id" "message_a" [("name", .vStr "test")] (by decide)

end DtoKit
